import Mathlib

/-!
Shallow embedding of the stripemeter core: the ingestion route
(events ingest handler), the aggregation-job dispatch, and the Stripe
billing driver (record usage, usage summary retry loop, mode selection).
Machine dates are modelled as integer milliseconds since the Unix epoch;
calendar conversion follows the proleptic Gregorian civil-date algorithms
used by JavaScript Date UTC accessors.
-/

namespace Stripemeter

/-! ### Civil calendar arithmetic (JavaScript Date UTC semantics) -/

/-- Days since 1970-01-01 for a civil date (proleptic Gregorian),
the arithmetic JavaScript Date uses for UTC fields. -/
def daysFromCivil (y m d : Int) : Int :=
  let yAdj : Int := if m ≤ 2 then y - 1 else y
  let era : Int := Int.fdiv yAdj 400
  let yoe : Int := yAdj - era * 400
  let mp : Int := if m > 2 then m - 3 else m + 9
  let doy : Int := Int.fdiv (153 * mp + 2) 5 + d - 1
  let doe : Int := yoe * 365 + Int.fdiv yoe 4 - Int.fdiv yoe 100 + doy
  era * 146097 + doe - 719468

/-- Civil date (year, month, day) for a count of days since 1970-01-01. -/
def civilFromDays (z0 : Int) : Int × Int × Int :=
  let z : Int := z0 + 719468
  let era : Int := Int.fdiv z 146097
  let doe : Int := z - era * 146097
  let yoe : Int := Int.fdiv (doe - Int.fdiv doe 1460 + Int.fdiv doe 36524 - Int.fdiv doe 146096) 365
  let y : Int := yoe + era * 400
  let doy : Int := doe - (365 * yoe + Int.fdiv yoe 4 - Int.fdiv yoe 100)
  let mp : Int := Int.fdiv (5 * doy + 2) 153
  let d : Int := doy - Int.fdiv (153 * mp + 2) 5 + 1
  let m : Int := mp + (if mp < 10 then 3 else -9)
  (if m ≤ 2 then y + 1 else y, m, d)

/-- Left-pad the decimal digits of the absolute value of n to w places. -/
def zeroPad (w : Nat) (n : Int) : String :=
  let s : String := toString n.natAbs
  String.mk (List.replicate (w - s.length) (Char.ofNat 48)) ++ s

/-- ISO-8601 string of the UTC first-of-month midnight containing the
instant ms (milliseconds since epoch), i.e. the JavaScript sequence
new Date(ms); setUTCDate(1); setUTCHours(0,0,0,0); toISOString()
(years 0..9999; the route only meets validated recent timestamps). -/
def isoFirstOfMonth (ms : Int) : String :=
  let c := civilFromDays (Int.fdiv ms 86400000)
  zeroPad 4 c.1 ++ "-" ++ zeroPad 2 c.2.1 ++ "-01T00:00:00.000Z"

/-! ### Ingestion gateway (POST /v1/events/ingest handler)

Embeds the normal-mode path of the events ingestion route: tenant check,
idempotency-key precedence, future-timestamp rejection, upsert-if-absent
persistence against the unique idempotency key, per-event result mapping,
and aggregation-job dispatch. Fields not inspected by the handler logic
(meta, source) are omitted. -/

/-- Per-event status in the ingest response. -/
inductive EvStatus where
  | accepted
  | duplicate
  | error
deriving DecidableEq, Repr

/-- Entry of the per-event results list of the ingest response. -/
structure ProcResult where
  idempotencyKey : String
  status : EvStatus
  errMsg : Option String
deriving DecidableEq, Repr

/-- Candidate event of an ingestion batch (validated request body entry);
ts is the parsed timestamp in milliseconds since epoch. -/
structure InEvent where
  tenantId : String
  metric : String
  customerRef : String
  resourceId : Option String
  ts : Int
  quantity : Rat
  idempotencyKey : Option String
deriving DecidableEq, Repr

/-- Row shape handed to the events repository (eventsToInsert entry). -/
structure PEvent where
  tenantId : String
  metric : String
  customerRef : String
  resourceId : Option String
  ts : Int
  quantity : Rat
  idempotencyKey : String
deriving DecidableEq, Repr

/-- Modelled from the spec: generateIdempotencyKey of @stripemeter/core is
not under src/; the spec defines it as a deterministic value derived from
(tenantId, metric, customerRef, resourceId, timestamp). -/
def generateIdempotencyKey (tenantId metric customerRef : String)
    (resourceId : Option String) (ts : Int) : String :=
  "evt:" ++ tenantId ++ ":" ++ metric ++ ":" ++ customerRef ++ ":" ++
    resourceId.getD "" ++ ":" ++ toString ts

/-- JavaScript truthiness on an optional string: the empty string is falsy,
so it behaves like an absent value on the || chain. -/
def jsTruthy (o : Option String) : Option String :=
  match o with
  | some s => if s = "" then none else some s
  | none => none

/-- Key precedence of the handler, the JavaScript expression
event.idempotencyKey || headerIdempotencyKey || generateIdempotencyKey(...). -/
def resolveKey (hdr : Option String) (e : InEvent) : String :=
  match jsTruthy e.idempotencyKey with
  | some k => k
  | none =>
    match jsTruthy hdr with
    | some h => h
    | none => generateIdempotencyKey e.tenantId e.metric e.customerRef e.resourceId e.ts

/-- Normal-mode tenant forcing: event.tenantId = authTenantId. -/
def forceTenant (authT : String) (e : InEvent) : InEvent :=
  { e with tenantId := authT }

/-- Row built for the repository from a processed event. -/
def mkPersisted (hdr : Option String) (e : InEvent) : PEvent :=
  { tenantId := e.tenantId
  , metric := e.metric
  , customerRef := e.customerRef
  , resourceId := e.resourceId
  , ts := e.ts
  , quantity := e.quantity
  , idempotencyKey := resolveKey hdr e }

/-- Temporal window: one hour in milliseconds (now + 60 * 60 * 1000). -/
def futureLimitMs : Int := 3600000

/-- Error message of the temporal-range rejection. -/
def futureErrMsg : String := "Event timestamp too far in the future"

/-- Whether the event timestamp is strictly more than one hour after now. -/
def isFuture (now : Int) (e : InEvent) : Bool :=
  now + futureLimitMs < e.ts

/-- Per-event loop of the ingest handler: tenant check (requireTenantMatch
aborts the whole request with 403 on a declared tenant that differs from
the authenticated one), tenant forcing, key resolution, temporal-range
rejection. Returns eventsToInsert, the indexed errors list and the error
results pushed during the loop. -/
def processEvents (authT : String) (hdr : Option String) (now : Int) :
    Nat → List InEvent → Except Nat (List PEvent × List (Nat × String) × List ProcResult)
  | _, [] => Except.ok ([], [], [])
  | i, e :: rest =>
    if e.tenantId ≠ "" ∧ e.tenantId ≠ authT then Except.error 403
    else
      let e2 := forceTenant authT e
      let key := resolveKey hdr e2
      if isFuture now e2 then
        match processEvents authT hdr now (i + 1) rest with
        | Except.error c => Except.error c
        | Except.ok (ins, errs, res) =>
          Except.ok (ins, (i, futureErrMsg) :: errs,
            ⟨key, EvStatus.error, some futureErrMsg⟩ :: res)
      else
        match processEvents authT hdr now (i + 1) rest with
        | Except.error c => Except.error c
        | Except.ok (ins, errs, res) => Except.ok (mkPersisted hdr e2 :: ins, errs, res)

/-- Upsert-if-absent against the set of consumed idempotency keys:
partitions the rows into (inserted, duplicate keys) and returns the
updated key store. -/
def upsertBatch (store : List String) :
    List PEvent → List PEvent × List String × List String
  | [] => ([], [], store)
  | e :: rest =>
    if e.idempotencyKey ∈ store then
      let r := upsertBatch store rest
      (r.1, e.idempotencyKey :: r.2.1, r.2.2)
    else
      let r := upsertBatch (e.idempotencyKey :: store) rest
      (e :: r.1, r.2.1, r.2.2)

/-- Result mapping of the handler: for each row of eventsToInsert, status
accepted when its key is among the inserted keys, else duplicate when
among the duplicate keys. -/
def mapResults (insKeys dupKeys : List String) : List PEvent → List ProcResult
  | [] => []
  | e :: rest =>
    if e.idempotencyKey ∈ insKeys then
      ⟨e.idempotencyKey, EvStatus.accepted, none⟩ :: mapResults insKeys dupKeys rest
    else if e.idempotencyKey ∈ dupKeys then
      ⟨e.idempotencyKey, EvStatus.duplicate, none⟩ :: mapResults insKeys dupKeys rest
    else mapResults insKeys dupKeys rest

/-- Aggregation job payload queued for the counter worker. -/
structure AggJob where
  tenantId : String
  metric : String
  customerRef : String
  periodStart : String
deriving DecidableEq, Repr

/-- Colon-joined logical key string of a job (also used as its jobId). -/
def aggJobKey (j : AggJob) : String :=
  j.tenantId ++ ":" ++ j.metric ++ ":" ++ j.customerRef ++ ":" ++ j.periodStart

/-- Job derived from an inserted event: periodStart is the UTC
first-of-month truncation of the event timestamp, as an ISO string. -/
def aggJobOf (e : PEvent) : AggJob :=
  ⟨e.tenantId, e.metric, e.customerRef, isoFirstOfMonth e.ts⟩

/-- Map-based grouping of the handler: first occurrence of each key string
wins, insertion order preserved. -/
def buildJobs : List PEvent → List (String × AggJob) → List (String × AggJob)
  | [], acc => acc
  | e :: rest, acc =>
    let j := aggJobOf e
    let k := aggJobKey j
    if acc.any (fun p => p.1 = k) then buildJobs rest acc
    else buildJobs rest (acc ++ [(k, j)])

/-- Queue submission: name aggregate-counter, stable jobId, fixed delay. -/
structure JobSubmission where
  data : AggJob
  jobId : String
  delayMs : Nat
deriving DecidableEq, Repr

/-- Jobs submitted by addBulk for the inserted events of one batch. -/
def submitJobs (inserted : List PEvent) : List JobSubmission :=
  (buildJobs inserted []).map (fun p => ⟨p.2, aggJobKey p.2, 1000⟩)

/-- Ingest response together with the persisted rows and the updated
consumed-key store (the observable outcome of one batch). -/
structure BatchOutcome where
  accepted : Nat
  duplicates : Nat
  results : List ProcResult
  errors : List (Nat × String)
  jobs : List JobSubmission
  inserted : List PEvent
  store : List String
deriving DecidableEq, Repr

/-- Whole ingest handler on one validated batch in normal mode; the error
case is the HTTP status of an aborted request (403 cross-tenant). -/
def processBatch (authT : String) (hdr : Option String) (now : Int)
    (store : List String) (batch : List InEvent) : Except Nat BatchOutcome :=
  match processEvents authT hdr now 0 batch with
  | Except.error c => Except.error c
  | Except.ok (toInsert, errs, errRes) =>
    let u := upsertBatch store toInsert
    let inserted := u.1
    let dupKeys := u.2.1
    let insKeys := inserted.map (fun e => e.idempotencyKey)
    Except.ok
      { accepted := inserted.length
      , duplicates := dupKeys.length
      , results := errRes ++ mapResults insKeys dupKeys toInsert
      , errors := errs
      , jobs := submitJobs inserted
      , inserted := inserted
      , store := u.2.2 }

/-- Number of results of a given status in a batch outcome. -/
def statusCount (s : EvStatus) (r : Except Nat BatchOutcome) : Nat :=
  match r with
  | Except.error _ => 0
  | Except.ok out => (out.results.filter (fun pr => decide (pr.status = s))).length

/-- Accepted count field of the response (0 when the request aborted). -/
def acceptedField (r : Except Nat BatchOutcome) : Nat :=
  match r with
  | Except.error _ => 0
  | Except.ok out => out.accepted

/-- Duplicates count field of the response (0 when the request aborted). -/
def duplicatesField (r : Except Nat BatchOutcome) : Nat :=
  match r with
  | Except.error _ => 0
  | Except.ok out => out.duplicates

/-- Number of aggregation jobs submitted for the batch. -/
def jobsCount (r : Except Nat BatchOutcome) : Nat :=
  match r with
  | Except.error _ => 0
  | Except.ok out => out.jobs.length

/-- Number of distinct (tenantId, metric, customerRef, periodStart)
groups among the inserted events of the batch. -/
def distinctGroupsCount (r : Except Nat BatchOutcome) : Nat :=
  match r with
  | Except.error _ => 0
  | Except.ok out => (out.inserted.map aggJobOf).dedup.length

/-! ### Stripe billing driver -/

/-- Environment selector carried with each push request. -/
inductive StripeMode where
  | live
  | test
deriving DecidableEq, Repr

/-- Configured provider client, identified by its secret key. -/
structure StripeClient where
  apiKey : String
deriving DecidableEq, Repr

/-- Driver state: a live client, and a test client only when a test key
was configured (an empty key is falsy, leaving the test client null). -/
structure Driver where
  stripeLive : StripeClient
  stripeTest : Option StripeClient
deriving DecidableEq, Repr

/-- Driver construction from the resolved live and test secret keys. -/
def mkDriver (liveKey testKey : String) : Driver :=
  { stripeLive := ⟨liveKey⟩
  , stripeTest := if testKey = "" then none else some ⟨testKey⟩ }

/-- Configuration error raised when test mode is requested without a
configured test client. -/
def testClientMissingMsg : String :=
  "Stripe test client not configured (STRIPE_TEST_SECRET_KEY missing)"

/-- clientForMode: test mode requires the test client and fails fast with
a configuration error when it is absent; live mode uses the live client. -/
def clientForMode (d : Driver) : StripeMode → Except String StripeClient
  | StripeMode.test =>
    match d.stripeTest with
    | none => Except.error testClientMissingMsg
    | some c => Except.ok c
  | StripeMode.live => Except.ok d.stripeLive

/-- Civil date (the parsed YYYY-MM-DD periodStart string). -/
structure CivilDate where
  year : Int
  month : Int
  day : Int
deriving DecidableEq, Repr

/-- Milliseconds since epoch of a date-only string parsed by the
JavaScript Date constructor: midnight UTC of that civil date. -/
def jsDateOnlyParseMs (d : CivilDate) : Int :=
  86400000 * daysFromCivil d.year d.month d.day

/-- JavaScript Math.round: floor of x + 1/2. -/
def jsMathRound (q : Rat) : Int := Int.floor (q + 1 / 2)

/-- Parameters of a recordUsage push. -/
structure RecordUsageParams where
  mode : StripeMode
  stripeAccount : String
  subscriptionItemId : String
  quantity : Rat
  periodStart : CivilDate
  idempotencyKey : String
deriving DecidableEq, Repr

/-- Action field of a provider usage record. -/
inductive UsageAction where
  | set
  | increment
deriving DecidableEq, Repr

/-- Body of the createUsageRecord provider call. -/
structure UsageRecordPayload where
  quantity : Int
  timestamp : Int
  action : UsageAction
deriving DecidableEq, Repr

/-- Per-request options of the provider call: idempotency key, and an
account override header unless the account is the sentinel default. -/
structure RequestOptions where
  idempotencyKey : String
  stripeAccount : Option String
deriving DecidableEq, Repr

/-- Usage-record body built by recordUsage: quantity Math.round-ed,
timestamp Math.floor(new Date(periodStart).getTime() / 1000), action set. -/
def recordUsagePayload (p : RecordUsageParams) : UsageRecordPayload :=
  { quantity := jsMathRound p.quantity
  , timestamp := Int.fdiv (jsDateOnlyParseMs p.periodStart) 1000
  , action := UsageAction.set }

/-- Request options built by recordUsage. -/
def recordUsageOptions (p : RecordUsageParams) : RequestOptions :=
  { idempotencyKey := p.idempotencyKey
  , stripeAccount := if p.stripeAccount = "default" then none else some p.stripeAccount }

/-- One createUsageRecord interaction with the provider. -/
structure ProviderCall where
  client : StripeClient
  subscriptionItemId : String
  payload : UsageRecordPayload
  options : RequestOptions
deriving DecidableEq, Repr

/-- recordUsage: resolves the client for the requested mode (failing fast
on a configuration error), then performs exactly one createUsageRecord
call with the deterministic payload. -/
def recordUsageRun (d : Driver) (p : RecordUsageParams) : Except String ProviderCall :=
  match clientForMode d p.mode with
  | Except.error msg => Except.error msg
  | Except.ok c =>
    Except.ok ⟨c, p.subscriptionItemId, recordUsagePayload p, recordUsageOptions p⟩

/-- Provider interactions performed by a recordUsage invocation: none when
the client resolution failed. -/
def recordUsageProviderCalls (d : Driver) (p : RecordUsageParams) : List ProviderCall :=
  match recordUsageRun d p with
  | Except.error _ => []
  | Except.ok c => [c]

/-- One createTestClock interaction. -/
structure TestClockCall where
  client : StripeClient
  frozenTime : Int
deriving DecidableEq, Repr

/-- createTestClock always resolves the test client. -/
def createTestClockRun (d : Driver) (frozenTime : Int) : Except String TestClockCall :=
  match clientForMode d StripeMode.test with
  | Except.error msg => Except.error msg
  | Except.ok c => Except.ok ⟨c, frozenTime⟩

/-- One advanceTestClock interaction. -/
structure AdvanceClockCall where
  client : StripeClient
  clockId : String
  frozenTime : Int
deriving DecidableEq, Repr

/-- advanceTestClock always resolves the test client. -/
def advanceTestClockRun (d : Driver) (clockId : String) (frozenTime : Int) :
    Except String AdvanceClockCall :=
  match clientForMode d StripeMode.test with
  | Except.error msg => Except.error msg
  | Except.ok c => Except.ok ⟨c, clockId, frozenTime⟩

/-! ### Driver retry loop (getUsageSummary) and single-shot recordUsage -/

/-- Outcome of one attempt of a provider call, as seen by the catch block:
success, or an error with its HTTP status (0 when absent). -/
inductive CallOutcome where
  | ok (value : Int)
  | err (status : Nat)
deriving DecidableEq, Repr

/-- Retryable statuses: 429, or any 5xx. -/
def isRetryableStatus (s : Nat) : Bool :=
  s == 429 || (500 ≤ s && s < 600)

/-- Bound of the retry loop in getUsageSummary. -/
def maxRetries : Nat := 3

instance instDecEqExcept {ε α : Type} [DecidableEq ε] [DecidableEq α] :
    DecidableEq (Except ε α) := fun x y =>
  match x, y with
  | Except.ok a, Except.ok b =>
    if h : a = b then isTrue (by rw [h]) else isFalse (by intro hh; cases hh; exact h rfl)
  | Except.error a, Except.error b =>
    if h : a = b then isTrue (by rw [h]) else isFalse (by intro hh; cases hh; exact h rfl)
  | Except.ok _, Except.error _ => isFalse (fun hh => Except.noConfusion hh)
  | Except.error _, Except.ok _ => isFalse (fun hh => Except.noConfusion hh)

/-- Trace of one driver call against an oracle of attempt outcomes: the
final result, the number of attempts made, and the backoff delays slept
between attempts (milliseconds). -/
structure AttemptTrace where
  result : Except Nat Int
  attempts : Nat
  delays : List Nat
deriving DecidableEq, Repr

/-- The while-true loop of getUsageSummary: on a retryable error with
attempt < maxRetries, sleep 2 ^ attempt * 250 ms and try again; otherwise
rethrow. -/
def summaryRetryLoop (att : Nat → CallOutcome) (attempt : Nat) : AttemptTrace :=
  match att attempt with
  | CallOutcome.ok v => ⟨Except.ok v, attempt + 1, []⟩
  | CallOutcome.err s =>
    if h : isRetryableStatus s = true ∧ attempt < maxRetries then
      let t := summaryRetryLoop att (attempt + 1)
      ⟨t.result, t.attempts, 2 ^ attempt * 250 :: t.delays⟩
    else ⟨Except.error s, attempt + 1, []⟩
termination_by maxRetries + 1 - attempt
decreasing_by simp only [maxRetries] at *; omega

/-- getUsageSummary attempt behavior, starting at attempt 0. -/
def getUsageSummaryRetry (att : Nat → CallOutcome) : AttemptTrace :=
  summaryRetryLoop att 0

/-- recordUsage attempt behavior: a single provider attempt, any error
propagates to the caller without driver-level retry. -/
def recordUsageAttempt (att : Nat → CallOutcome) : AttemptTrace :=
  match att 0 with
  | CallOutcome.ok v => ⟨Except.ok v, 1, []⟩
  | CallOutcome.err s => ⟨Except.error s, 1, []⟩

/-! ### getUsageSummary pagination -/

/-- One page of usage-record summaries: the total_usage field of each
entry (absent modelled as none), and the has_more flag. -/
structure SummaryPage where
  data : List (Option Int)
  hasMore : Bool
deriving DecidableEq, Repr

/-- Parameters of one listUsageRecordSummaries request. -/
structure ListParams where
  limit : Nat
deriving DecidableEq, Repr

/-- Contribution of one page: sum of total_usage with absent as 0. -/
def summaryPageSum (pg : SummaryPage) : Int :=
  (pg.data.map (fun o => o.getD 0)).sum

/-- Pagination loop of getUsageSummary: at most 5 iterations, each
requesting a page of limit 100, accumulating the page sums, stopping
early when has_more is false. Returns the total and the pages fetched. -/
def summaryPagesLoop (fetch : ListParams → Nat → SummaryPage) (i : Nat) (acc : Int) :
    Int × Nat :=
  if h : i < 5 then
    let pg := fetch ⟨100⟩ i
    let acc2 := acc + summaryPageSum pg
    if pg.hasMore then summaryPagesLoop fetch (i + 1) acc2 else (acc2, i + 1)
  else (acc, i)
termination_by 5 - i

/-- getUsageSummary total: always paginates with the live client,
whatever test configuration the driver holds. -/
def getUsageSummaryTotal (d : Driver)
    (provider : StripeClient → ListParams → Nat → SummaryPage) : Int × Nat :=
  summaryPagesLoop (provider d.stripeLive) 0 0

/-! ### Push idempotency key (writer side) -/

/-- Decimal formatting with exactly six fraction digits (JavaScript
toFixed(6)): round the scaled value to the nearest integer, ties away
from the smaller candidate, then print integer and zero-padded fraction. -/
def toFixed6 (q : Rat) : String :=
  let n : Int := Int.floor (q * 1000000 + 1 / 2)
  let a : Nat := n.natAbs
  (if n < 0 then "-" else "") ++ toString (a / 1000000) ++ "." ++ zeroPad 6 (a % 1000000)

/-- Modelled from the spec: generateStripeIdempotencyKey of
@stripemeter/core is not under src/; the spec defines it as a
deterministic string built from (tenantId, subscriptionItemId,
periodStart, quantity formatted to exactly six decimal places) with a
push marker in front, and the stripe-writer test pins the literal
push:123e4567-e89b-12d3-a456-426614174000:si_ABC123:2025-01-01:100.500000
for quantity 100.5. -/
def generateStripeIdempotencyKey (tenantId subscriptionItemId periodStart : String)
    (quantity : Rat) : String :=
  "push:" ++ tenantId ++ ":" ++ subscriptionItemId ++ ":" ++ periodStart ++ ":" ++
    toFixed6 quantity

/-- Midnight UTC of a civil date in epoch seconds (the reference value
the recordUsage timestamp must equal). -/
def midnightUTCEpochSec (d : CivilDate) : Int :=
  86400 * daysFromCivil d.year d.month d.day

/-! ### Helper characterizations of the per-event loop -/

/-- Rows the loop hands to the repository: the non-future events, tenant
forced, with their resolved keys. -/
def toInsertList (authT : String) (hdr : Option String) (now : Int)
    (batch : List InEvent) : List PEvent :=
  batch.filterMap (fun e =>
    let e2 := forceTenant authT e
    if isFuture now e2 then none else some (mkPersisted hdr e2))

/-- Indexed temporal-range errors produced by the loop from position i
(forcing the tenant does not change the timestamp, so the check reads
the raw event). -/
def futureErrs (now : Int) : Nat → List InEvent → List (Nat × String)
  | _, [] => []
  | i, e :: rest =>
    if isFuture now e then (i, futureErrMsg) :: futureErrs now (i + 1) rest
    else futureErrs now (i + 1) rest

/-- Error results pushed during the loop for the future-dated events. -/
def futureErrResults (authT : String) (hdr : Option String) (now : Int)
    (batch : List InEvent) : List ProcResult :=
  batch.filterMap (fun e =>
    let e2 := forceTenant authT e
    if isFuture now e2 then some ⟨resolveKey hdr e2, EvStatus.error, some futureErrMsg⟩
    else none)

/-! ### Helper lemmas on the ingestion loop -/

theorem isFuture_forceTenant (now : Int) (t : String) (e : InEvent) :
    isFuture now (forceTenant t e) = isFuture now e := rfl

theorem processEvents_ok (authT : String) (hdr : Option String) (now : Int) :
    ∀ (batch : List InEvent) (i : Nat),
      (∀ e ∈ batch, ¬(e.tenantId ≠ "" ∧ e.tenantId ≠ authT)) →
      processEvents authT hdr now i batch =
        Except.ok (toInsertList authT hdr now batch, futureErrs now i batch,
          futureErrResults authT hdr now batch) := by
  intro batch
  induction batch with
  | nil => intro i _; rfl
  | cons e rest ih =>
    intro i h
    have hok : ¬(e.tenantId ≠ "" ∧ e.tenantId ≠ authT) := h e (List.mem_cons_self _ _)
    have ihr := ih (i + 1) (fun x hx => h x (List.mem_cons_of_mem _ hx))
    by_cases hf : isFuture now e
    · simp [processEvents, hok, ihr, toInsertList, futureErrs, futureErrResults,
        List.filterMap_cons, isFuture_forceTenant, hf]
    · simp [processEvents, hok, ihr, toInsertList, futureErrs, futureErrResults,
        List.filterMap_cons, isFuture_forceTenant, hf]

theorem processEvents_mismatch (authT : String) (hdr : Option String) (now : Int) :
    ∀ (batch : List InEvent) (i : Nat),
      (∃ e ∈ batch, e.tenantId ≠ "" ∧ e.tenantId ≠ authT) →
      processEvents authT hdr now i batch = Except.error 403 := by
  intro batch
  induction batch with
  | nil => intro i h; simp at h
  | cons e rest ih =>
    intro i h
    by_cases hem : e.tenantId ≠ "" ∧ e.tenantId ≠ authT
    · simp [processEvents, hem]
    · obtain ⟨x, hx, hxm⟩ := h
      rcases List.mem_cons.mp hx with hxe | hxr
      · exact absurd (hxe ▸ hxm) hem
      · have ihr := ih (i + 1) ⟨x, hxr, hxm⟩
        by_cases hf : isFuture now e <;>
          simp [processEvents, hem, ihr, isFuture_forceTenant, hf]

theorem upsertBatch_mem (store : List String) :
    ∀ (l : List PEvent) (p : PEvent), p ∈ (upsertBatch store l).1 → p ∈ l := by
  intro l
  induction l generalizing store with
  | nil => intro p hp; simp [upsertBatch] at hp
  | cons e rest ih =>
    intro p hp
    by_cases hm : e.idempotencyKey ∈ store
    · simp only [upsertBatch, if_pos hm] at hp
      exact List.mem_cons_of_mem _ (ih store p hp)
    · simp only [upsertBatch, if_neg hm] at hp
      rcases List.mem_cons.mp hp with hpe | hpr
      · exact hpe ▸ List.mem_cons_self _ _
      · exact List.mem_cons_of_mem _ (ih _ p hpr)

theorem toInsertList_mem (authT : String) (hdr : Option String) (now : Int)
    (batch : List InEvent) (p : PEvent) (hp : p ∈ toInsertList authT hdr now batch) :
    ∃ e ∈ batch, isFuture now e = false ∧ p = mkPersisted hdr (forceTenant authT e) := by
  simp only [toInsertList, List.mem_filterMap] at hp
  obtain ⟨e, he, hcond⟩ := hp
  by_cases hf : isFuture now (forceTenant authT e)
  · simp [hf] at hcond
  · simp [hf] at hcond
    exact ⟨e, he, by simpa [isFuture_forceTenant] using hf, hcond.symm⟩

theorem toInsertList_filter (authT : String) (hdr : Option String) (now : Int)
    (batch : List InEvent) :
    toInsertList authT hdr now (batch.filter (fun e => !isFuture now e)) =
      toInsertList authT hdr now batch := by
  induction batch with
  | nil => rfl
  | cons e rest ih =>
    by_cases hf : isFuture now e
    · simp [toInsertList, List.filter_cons, hf, isFuture_forceTenant, List.filterMap_cons] at ih ⊢
      exact ih
    · simp [toInsertList, List.filter_cons, hf, isFuture_forceTenant, List.filterMap_cons] at ih ⊢
      exact ih

theorem buildJobs_acc_sub :
    ∀ (l : List PEvent) (acc : List (String × AggJob)) (p : String × AggJob),
      p ∈ acc → p ∈ buildJobs l acc := by
  intro l
  induction l with
  | nil => intro acc p hp; exact hp
  | cons e rest ih =>
    intro acc p hp
    by_cases hc : acc.any (fun q => q.1 = aggJobKey (aggJobOf e))
    · simpa [buildJobs, hc] using ih acc p hp
    · simp only [buildJobs, if_neg hc]
      exact ih _ p (List.mem_append_left _ hp)

theorem buildJobs_mem :
    ∀ (l : List PEvent) (acc : List (String × AggJob)) (p : String × AggJob),
      p ∈ buildJobs l acc →
      p ∈ acc ∨ ∃ e ∈ l, p = (aggJobKey (aggJobOf e), aggJobOf e) := by
  intro l
  induction l with
  | nil => intro acc p hp; exact Or.inl hp
  | cons e rest ih =>
    intro acc p hp
    by_cases hc : acc.any (fun q => q.1 = aggJobKey (aggJobOf e))
    · simp only [buildJobs, if_pos hc] at hp
      rcases ih acc p hp with h1 | ⟨x, hx, hpx⟩
      · exact Or.inl h1
      · exact Or.inr ⟨x, List.mem_cons_of_mem _ hx, hpx⟩
    · simp only [buildJobs, if_neg hc] at hp
      rcases ih _ p hp with h1 | ⟨x, hx, hpx⟩
      · rcases List.mem_append.mp h1 with h2 | h2
        · exact Or.inl h2
        · simp at h2
          exact Or.inr ⟨e, List.mem_cons_self _ _, h2⟩
      · exact Or.inr ⟨x, List.mem_cons_of_mem _ hx, hpx⟩

theorem buildJobs_covers :
    ∀ (l : List PEvent) (acc : List (String × AggJob)) (e : PEvent), e ∈ l →
      ∃ p ∈ buildJobs l acc, p.1 = aggJobKey (aggJobOf e) := by
  intro l
  induction l with
  | nil => intro acc e he; simp at he
  | cons a rest ih =>
    intro acc e he
    rcases List.mem_cons.mp he with hea | her
    · subst hea
      by_cases hc : acc.any (fun q => q.1 = aggJobKey (aggJobOf e))
      · obtain ⟨q, hq, hq1⟩ := List.any_eq_true.mp hc
        refine ⟨q, ?_, of_decide_eq_true hq1⟩
        simp only [buildJobs, if_pos hc]
        exact buildJobs_acc_sub rest acc q hq
      · refine ⟨(aggJobKey (aggJobOf e), aggJobOf e), ?_, rfl⟩
        simp only [buildJobs, if_neg hc]
        exact buildJobs_acc_sub rest _ _ (List.mem_append_right _ (by simp))
    · by_cases hc : acc.any (fun q => q.1 = aggJobKey (aggJobOf a))
      · simpa [buildJobs, hc] using ih acc e her
      · simpa [buildJobs, hc] using ih _ e her

theorem buildJobs_fst_eq :
    ∀ (l : List PEvent) (acc : List (String × AggJob)),
      (∀ p ∈ acc, p.1 = aggJobKey p.2) →
      ∀ p ∈ buildJobs l acc, p.1 = aggJobKey p.2 := by
  intro l
  induction l with
  | nil => intro acc h p hp; exact h p hp
  | cons e rest ih =>
    intro acc h p hp
    by_cases hc : acc.any (fun q => q.1 = aggJobKey (aggJobOf e))
    · simp only [buildJobs, if_pos hc] at hp
      exact ih acc h p hp
    · simp only [buildJobs, if_neg hc] at hp
      refine ih _ ?_ p hp
      intro q hq
      rcases List.mem_append.mp hq with h1 | h1
      · exact h q h1
      · simp at h1
        simp [h1]

theorem buildJobs_keys_nodup :
    ∀ (l : List PEvent) (acc : List (String × AggJob)),
      (acc.map Prod.fst).Nodup → ((buildJobs l acc).map Prod.fst).Nodup := by
  intro l
  induction l with
  | nil => intro acc h; exact h
  | cons e rest ih =>
    intro acc h
    by_cases hc : acc.any (fun q => q.1 = aggJobKey (aggJobOf e))
    · simpa [buildJobs, hc] using ih acc h
    · simp only [buildJobs, if_neg hc]
      refine ih _ ?_
      have hall : ∀ q ∈ acc, ¬q.1 = aggJobKey (aggJobOf e) := by
        intro q hq hq1
        exact hc (List.any_eq_true.mpr ⟨q, hq, by simpa using hq1⟩)
      have hnotin : aggJobKey (aggJobOf e) ∉ acc.map Prod.fst := by
        intro hmem
        obtain ⟨q, hq, hq1⟩ := List.mem_map.mp hmem
        exact hall q hq hq1
      simp [List.nodup_append, h, List.disjoint_singleton]
      simpa using hnotin

/-! ### Helper lemmas on the driver -/

theorem summaryRetryLoop_ok (att : Nat → CallOutcome) (attempt : Nat) (v : Int)
    (h : att attempt = CallOutcome.ok v) :
    summaryRetryLoop att attempt = ⟨Except.ok v, attempt + 1, []⟩ := by
  rw [summaryRetryLoop, h]

theorem summaryRetryLoop_retry (att : Nat → CallOutcome) (attempt : Nat) (s : Nat)
    (h : att attempt = CallOutcome.err s) (hr : isRetryableStatus s = true)
    (ha : attempt < maxRetries) :
    summaryRetryLoop att attempt =
      ⟨(summaryRetryLoop att (attempt + 1)).result,
       (summaryRetryLoop att (attempt + 1)).attempts,
       2 ^ attempt * 250 :: (summaryRetryLoop att (attempt + 1)).delays⟩ := by
  rw [summaryRetryLoop, h]
  simp [hr, ha]

theorem summaryRetryLoop_stop (att : Nat → CallOutcome) (attempt : Nat) (s : Nat)
    (h : att attempt = CallOutcome.err s)
    (hs : ¬(isRetryableStatus s = true ∧ attempt < maxRetries)) :
    summaryRetryLoop att attempt = ⟨Except.error s, attempt + 1, []⟩ := by
  rw [summaryRetryLoop, h]
  simp [hs]

theorem summaryPagesLoop_spec (fetch : ListParams → Nat → SummaryPage) :
    ∀ (n i : Nat) (acc : Int), 5 - i = n → i ≤ 5 →
      i ≤ (summaryPagesLoop fetch i acc).2 ∧ (summaryPagesLoop fetch i acc).2 ≤ 5 ∧
      (summaryPagesLoop fetch i acc).1 =
        acc + ∑ j in Finset.Ico i (summaryPagesLoop fetch i acc).2,
          summaryPageSum (fetch ⟨100⟩ j) := by
  intro n
  induction n with
  | zero =>
    intro i acc h0 hle
    have hi : i = 5 := by omega
    subst hi
    rw [summaryPagesLoop]
    simp
  | succ n ih =>
    intro i acc hn hle
    have hi : i < 5 := by omega
    by_cases hm : (fetch ⟨100⟩ i).hasMore
    · have hstep : summaryPagesLoop fetch i acc =
          summaryPagesLoop fetch (i + 1) (acc + summaryPageSum (fetch ⟨100⟩ i)) := by
        rw [summaryPagesLoop]
        simp [dif_pos hi, hm]
      obtain ⟨h1, h2, h3⟩ := ih (i + 1) (acc + summaryPageSum (fetch ⟨100⟩ i))
        (by omega) (by omega)
      rw [hstep]
      refine ⟨by omega, h2, ?_⟩
      rw [h3, Finset.sum_eq_sum_Ico_succ_bot
        (show i < (summaryPagesLoop fetch (i + 1) (acc + summaryPageSum (fetch ⟨100⟩ i))).2 by omega)]
      ring
    · have hstep : summaryPagesLoop fetch i acc =
          (acc + summaryPageSum (fetch ⟨100⟩ i), i + 1) := by
        rw [summaryPagesLoop]
        simp [dif_pos hi, hm]
      rw [hstep]
      refine ⟨by omega, by omega, ?_⟩
      rw [Finset.sum_eq_sum_Ico_succ_bot (show i < i + 1 by omega)]
      simp

theorem jsMathRound_near (q : Rat) : |((jsMathRound q : Int) : Rat) - q| ≤ 1 / 2 := by
  rw [abs_le]
  constructor
  · have h := Int.lt_floor_add_one (q + 1 / 2)
    simp only [jsMathRound]
    linarith
  · have h := Int.floor_le (q + 1 / 2)
    simp only [jsMathRound]
    linarith

theorem recordUsage_timestamp_midnight (d : CivilDate) :
    Int.fdiv (jsDateOnlyParseMs d) 1000 = midnightUTCEpochSec d := by
  simp only [jsDateOnlyParseMs, midnightUTCEpochSec]
  have : (86400000 : Int) * daysFromCivil d.year d.month d.day =
      1000 * (86400 * daysFromCivil d.year d.month d.day) := by ring
  rw [this, Int.mul_fdiv_cancel_left _ (by norm_num)]

theorem processBatch_ok (authT : String) (hdr : Option String) (now : Int)
    (store : List String) (batch : List InEvent)
    (hok : ∀ e ∈ batch, ¬(e.tenantId ≠ "" ∧ e.tenantId ≠ authT)) :
    processBatch authT hdr now store batch = Except.ok
      { accepted := (upsertBatch store (toInsertList authT hdr now batch)).1.length
      , duplicates := (upsertBatch store (toInsertList authT hdr now batch)).2.1.length
      , results := futureErrResults authT hdr now batch ++
          mapResults
            ((upsertBatch store (toInsertList authT hdr now batch)).1.map
              (fun e => e.idempotencyKey))
            (upsertBatch store (toInsertList authT hdr now batch)).2.1
            (toInsertList authT hdr now batch)
      , errors := futureErrs now 0 batch
      , jobs := submitJobs (upsertBatch store (toInsertList authT hdr now batch)).1
      , inserted := (upsertBatch store (toInsertList authT hdr now batch)).1
      , store := (upsertBatch store (toInsertList authT hdr now batch)).2.2 } := by
  unfold processBatch
  rw [processEvents_ok authT hdr now batch 0 hok]

theorem processBatch_mismatch (authT : String) (hdr : Option String) (now : Int)
    (store : List String) (batch : List InEvent)
    (hex : ∃ e ∈ batch, e.tenantId ≠ "" ∧ e.tenantId ≠ authT) :
    processBatch authT hdr now store batch = Except.error 403 := by
  unfold processBatch
  rw [processEvents_mismatch authT hdr now batch 0 hex]

theorem futureErrs_mem (now : Int) :
    ∀ (batch : List InEvent) (i j : Nat) (e : InEvent),
      batch.get? j = some e → isFuture now e = true →
      (i + j, futureErrMsg) ∈ futureErrs now i batch := by
  intro batch
  induction batch with
  | nil => intro i j e hj _; simp at hj
  | cons a rest ih =>
    intro i j e hj hf
    cases j with
    | zero =>
      simp only [List.get?] at hj
      injection hj with hj
      subst hj
      simp [futureErrs, hf]
    | succ j2 =>
      simp only [List.get?] at hj
      have hmem := ih (i + 1) j2 e hj hf
      have harith : i + (j2 + 1) = (i + 1) + j2 := by omega
      by_cases hfa : isFuture now a
      · simp only [futureErrs, hfa, if_true]
        rw [harith]
        exact List.mem_cons_of_mem _ hmem
      · simp only [futureErrs, hfa, if_false]
        rw [harith]
        exact hmem

theorem futureErrResults_mem (authT : String) (hdr : Option String) (now : Int)
    (batch : List InEvent) (e : InEvent) (he : e ∈ batch)
    (hf : isFuture now e = true) :
    (⟨resolveKey hdr (forceTenant authT e), EvStatus.error, some futureErrMsg⟩ : ProcResult) ∈
      futureErrResults authT hdr now batch := by
  apply List.mem_filterMap.mpr
  refine ⟨e, he, ?_⟩
  simp [isFuture_forceTenant, hf]

theorem submitJobs_sound (ins : List PEvent) :
    ∀ js ∈ submitJobs ins, js.delayMs = 1000 ∧ js.jobId = aggJobKey js.data ∧
      ∃ p ∈ ins, js.data = aggJobOf p := by
  intro js hjs
  simp only [submitJobs, List.mem_map] at hjs
  obtain ⟨pair, hpair, hjseq⟩ := hjs
  rcases buildJobs_mem ins [] pair hpair with h | ⟨e, he, heq⟩
  · simp at h
  · refine hjseq ▸ ⟨rfl, rfl, e, he, ?_⟩
    rw [heq]

theorem submitJobs_covers (ins : List PEvent) :
    ∀ p ∈ ins, ∃ js ∈ submitJobs ins, js.jobId = aggJobKey (aggJobOf p) := by
  intro p hp
  obtain ⟨pair, hpair, hfst⟩ := buildJobs_covers ins [] p hp
  refine ⟨⟨pair.2, aggJobKey pair.2, 1000⟩, List.mem_map.mpr ⟨pair, hpair, rfl⟩, ?_⟩
  have hinv := buildJobs_fst_eq ins [] (by simp) pair hpair
  simp only []
  rw [← hinv, hfst]

theorem submitJobs_nodup (ins : List PEvent) :
    ((submitJobs ins).map (fun js => js.jobId)).Nodup := by
  have h1 : (submitJobs ins).map (fun js => js.jobId) =
      (buildJobs ins []).map Prod.fst := by
    simp only [submitJobs, List.map_map]
    apply List.map_congr_left
    intro pair hpair
    exact (buildJobs_fst_eq ins [] (by simp) pair hpair).symm
  rw [h1]
  exact buildJobs_keys_nodup ins [] (by simp)

/-! ### Claim theorems -/

/-- C2: for every tenantId T and subscription item S, the push
idempotency key for quantity 100.5 and period 2025-01-01 is the
deterministic literal push:T:S:2025-01-01:100.500000 — the prefixed
colon-joined string with the quantity formatted to exactly six decimal
places — on every invocation (the key is a pure function of its inputs). -/
theorem push_idempotency_key_literal (T S : String) :
    generateStripeIdempotencyKey T S "2025-01-01" (100.5 : Rat) =
      "push:" ++ T ++ ":" ++ S ++ ":2025-01-01:100.500000" := by
  have h6 : toFixed6 (100.5 : Rat) = "100.500000" := by
    have h : ⌊(100.5 : Rat) * 1000000 + 1 / 2⌋ = (100500000 : Int) := by norm_num
    unfold toFixed6
    rw [h]
    decide
  unfold generateStripeIdempotencyKey
  rw [h6]
  apply String.ext
  simp [String.data_append]

/-- C3: every recordUsage payload carries a timestamp equal to midnight
UTC (epoch seconds) of the periodStart date — hence a pure function of
the period, identical across repeated calls — a quantity within 1/2 of
the input (nearest-integer rounding, Math.round), and action set. -/
theorem recordUsage_payload_deterministic (p : RecordUsageParams) :
    (recordUsagePayload p).timestamp = midnightUTCEpochSec p.periodStart ∧
    (recordUsagePayload p).quantity = jsMathRound p.quantity ∧
    |(((recordUsagePayload p).quantity : Int) : Rat) - p.quantity| ≤ 1 / 2 ∧
    (recordUsagePayload p).action = UsageAction.set := by
  refine ⟨?_, rfl, ?_, rfl⟩
  · exact recordUsage_timestamp_midnight p.periodStart
  · exact jsMathRound_near p.quantity

/-- C8: a driver built without a test credential fails every test-mode
operation (recordUsage with mode test, createTestClock, advanceTestClock)
fast with the configuration error and performs no provider interaction;
with a test credential configured, test mode resolves the test client and
live mode the live client — never a silent fallback. -/
theorem driver_mode_selection (liveKey testKey : String) (p : RecordUsageParams)
    (ft : Int) (cid : String) :
    (testKey = "" → p.mode = StripeMode.test →
      recordUsageRun (mkDriver liveKey testKey) p = Except.error testClientMissingMsg ∧
      recordUsageProviderCalls (mkDriver liveKey testKey) p = []) ∧
    (testKey = "" →
      createTestClockRun (mkDriver liveKey testKey) ft = Except.error testClientMissingMsg ∧
      advanceTestClockRun (mkDriver liveKey testKey) cid ft = Except.error testClientMissingMsg) ∧
    (testKey ≠ "" →
      clientForMode (mkDriver liveKey testKey) StripeMode.test = Except.ok ⟨testKey⟩) ∧
    clientForMode (mkDriver liveKey testKey) StripeMode.live = Except.ok ⟨liveKey⟩ := by
  refine ⟨?_, ?_, ?_, rfl⟩
  · intro ht hm
    subst ht
    have hc : clientForMode (mkDriver liveKey "") p.mode = Except.error testClientMissingMsg := by
      rw [hm]
      simp [clientForMode, mkDriver]
    constructor
    · simp [recordUsageRun, hc]
    · simp [recordUsageProviderCalls, recordUsageRun, hc]
  · intro ht
    subst ht
    constructor
    · simp [createTestClockRun, clientForMode, mkDriver]
    · simp [advanceTestClockRun, clientForMode, mkDriver]
  · intro ht
    simp [clientForMode, mkDriver, ht]

/-- Witness for driver_mode_selection at concrete inputs. -/
theorem driver_mode_selection_witness :
    (recordUsageRun (mkDriver "sk_live" "")
        ⟨StripeMode.test, "default", "si_1", 10, ⟨2025, 1, 1⟩, "push:k"⟩ =
      Except.error testClientMissingMsg) ∧
    (recordUsageProviderCalls (mkDriver "sk_live" "")
        ⟨StripeMode.test, "default", "si_1", 10, ⟨2025, 1, 1⟩, "push:k"⟩ = []) ∧
    (createTestClockRun (mkDriver "sk_live" "") 123 = Except.error testClientMissingMsg) ∧
    (clientForMode (mkDriver "sk_live" "sk_test") StripeMode.test = Except.ok ⟨"sk_test"⟩) ∧
    (clientForMode (mkDriver "sk_live" "sk_test") StripeMode.live = Except.ok ⟨"sk_live"⟩) := by
  obtain ⟨h1, h2, h3, h4⟩ := driver_mode_selection "sk_live" ""
    ⟨StripeMode.test, "default", "si_1", 10, ⟨2025, 1, 1⟩, "push:k"⟩ 123 "clk"
  obtain ⟨h5, h6, h7, h8⟩ := driver_mode_selection "sk_live" "sk_test"
    ⟨StripeMode.test, "default", "si_1", 10, ⟨2025, 1, 1⟩, "push:k"⟩ 123 "clk"
  exact ⟨(h1 rfl rfl).1, (h1 rfl rfl).2, (h2 rfl).1, h7 (by decide), h8⟩

/-- C10: getUsageSummary always paginates with the live client — drivers
differing only in their test credential produce identical summaries, and
only the limit-100 requests to the live client matter — fetching at most
5 pages, and the returned total is the sum of the page sums, where an
absent total_usage contributes 0. -/
theorem usage_summary_pagination (liveKey tk1 tk2 : String)
    (provider : StripeClient → ListParams → Nat → SummaryPage) :
    getUsageSummaryTotal (mkDriver liveKey tk1) provider =
      getUsageSummaryTotal (mkDriver liveKey tk2) provider ∧
    (∀ d : Driver, (getUsageSummaryTotal d provider).2 ≤ 5 ∧
      (getUsageSummaryTotal d provider).1 =
        ∑ j in Finset.range (getUsageSummaryTotal d provider).2,
          summaryPageSum (provider d.stripeLive ⟨100⟩ j)) ∧
    (∀ (rest : List (Option Int)) (b : Bool),
      summaryPageSum ⟨none :: rest, b⟩ = summaryPageSum ⟨rest, b⟩) ∧
    (∀ f g : ListParams → Nat → SummaryPage,
      (∀ i, f ⟨100⟩ i = g ⟨100⟩ i) → summaryPagesLoop f 0 0 = summaryPagesLoop g 0 0) := by
  refine ⟨rfl, ?_, ?_, ?_⟩
  · intro d
    obtain ⟨h1, h2, h3⟩ := summaryPagesLoop_spec (provider d.stripeLive) 5 0 0 rfl (by omega)
    refine ⟨h2, ?_⟩
    unfold getUsageSummaryTotal
    rw [h3, Finset.range_eq_Ico]
    simp
  · intro rest b
    simp [summaryPageSum]
  · intro f g hfg
    have hgen : ∀ (n i : Nat) (acc : Int), 5 - i = n →
        summaryPagesLoop f i acc = summaryPagesLoop g i acc := by
      intro n
      induction n with
      | zero =>
        intro i acc h0
        rw [summaryPagesLoop, summaryPagesLoop]
        have : ¬i < 5 := by omega
        simp [this]
      | succ n ih =>
        intro i acc h0
        rw [summaryPagesLoop, summaryPagesLoop]
        by_cases hi : i < 5
        · simp only [dif_pos hi, hfg i]
          by_cases hm : (g ⟨100⟩ i).hasMore <;> simp [hm, ih (i + 1) _ (by omega)]
        · simp [hi]
    exact hgen 5 0 0 rfl

/-- Witness for usage_summary_pagination at concrete inputs. -/
theorem usage_summary_pagination_witness :
    getUsageSummaryTotal (mkDriver "lk" "a")
        (fun _ _ _ => ⟨[some 10, none, some 5], false⟩) =
      getUsageSummaryTotal (mkDriver "lk" "b")
        (fun _ _ _ => ⟨[some 10, none, some 5], false⟩) ∧
    (getUsageSummaryTotal (mkDriver "lk" "a")
        (fun _ _ _ => ⟨[some 10, none, some 5], false⟩)).2 ≤ 5 ∧
    summaryPageSum ⟨[none, some 7], true⟩ = summaryPageSum ⟨[some 7], true⟩ ∧
    summaryPagesLoop (fun _ _ => ⟨[some 1], true⟩) 0 0 =
      summaryPagesLoop (fun _ _ => ⟨[some 1], true⟩) 0 0 := by
  obtain ⟨h1, h2, h3, h4⟩ := usage_summary_pagination "lk" "a" "b"
    (fun _ _ _ => ⟨[some 10, none, some 5], false⟩)
  exact ⟨h1, (h2 (mkDriver "lk" "a")).1,
    usage_summary_pagination "lk" "a" "b" (fun _ _ _ => ⟨[none, some 7], true⟩)
      |>.2.2.1 [some 7] true,
    usage_summary_pagination "lk" "a" "b" (fun _ _ _ => ⟨[some 1], true⟩)
      |>.2.2.2 (fun _ _ => ⟨[some 1], true⟩) (fun _ _ => ⟨[some 1], true⟩) (fun _ => rfl)⟩

/-- C4 counterexample: recordUsage is a billing-driver call, yet against
an oracle that returns HTTP 429 on the first two attempts and succeeds on
the third it does not complete successfully in 3 attempts — it propagates
the 429 after a single attempt, because the retry loop only exists in
getUsageSummary. -/
theorem recordUsage_no_retry_counterexample :
    ¬((recordUsageAttempt
        (fun n => if n < 2 then CallOutcome.err 429 else CallOutcome.ok 7)).result =
          Except.ok 7 ∧
      (recordUsageAttempt
        (fun n => if n < 2 then CallOutcome.err 429 else CallOutcome.ok 7)).attempts = 3) ∧
    recordUsageAttempt (fun n => if n < 2 then CallOutcome.err 429 else CallOutcome.ok 7) =
      ⟨Except.error 429, 1, []⟩ := by
  decide

/-- C4 amended: the getUsageSummary call retries on 429/5xx with
exponential backoff starting at 250 ms and doubling per attempt, up to 3
retry attempts — succeeding on the third attempt after two 429s with
exactly 3 attempts and delays 250, 500 — while a non-retryable first
error propagates immediately after one attempt, retry exhaustion
propagates the last error after 4 attempts, and recordUsage performs a
single attempt and propagates any error at once. -/
theorem driver_retry_behavior (att : Nat → CallOutcome) (v : Int) (s : Nat) :
    (att 0 = CallOutcome.err 429 → att 1 = CallOutcome.err 429 → att 2 = CallOutcome.ok v →
      getUsageSummaryRetry att = ⟨Except.ok v, 3, [250, 500]⟩) ∧
    (att 0 = CallOutcome.err s → isRetryableStatus s = false →
      getUsageSummaryRetry att = ⟨Except.error s, 1, []⟩) ∧
    ((∀ k, k ≤ maxRetries → ∃ sk, att k = CallOutcome.err sk ∧ isRetryableStatus sk = true) →
      ∃ sl, att maxRetries = CallOutcome.err sl ∧
        getUsageSummaryRetry att = ⟨Except.error sl, 4, [250, 500, 1000]⟩) ∧
    (att 0 = CallOutcome.err s → recordUsageAttempt att = ⟨Except.error s, 1, []⟩) := by
  refine ⟨?_, ?_, ?_, ?_⟩
  · intro h0 h1 h2
    rw [getUsageSummaryRetry,
      summaryRetryLoop_retry att 0 429 h0 (by decide) (by decide),
      summaryRetryLoop_retry att 1 429 h1 (by decide) (by decide),
      summaryRetryLoop_ok att 2 v h2]
    norm_num
  · intro h0 hs
    rw [getUsageSummaryRetry, summaryRetryLoop_stop att 0 s h0 (by simp [hs])]
  · intro hall
    obtain ⟨s0, h0, hr0⟩ := hall 0 (by decide)
    obtain ⟨s1, h1, hr1⟩ := hall 1 (by decide)
    obtain ⟨s2, h2, hr2⟩ := hall 2 (by decide)
    obtain ⟨s3, h3, hr3⟩ := hall 3 (by decide)
    refine ⟨s3, h3, ?_⟩
    rw [getUsageSummaryRetry,
      summaryRetryLoop_retry att 0 s0 h0 hr0 (by decide),
      summaryRetryLoop_retry att 1 s1 h1 hr1 (by decide),
      summaryRetryLoop_retry att 2 s2 h2 hr2 (by decide),
      summaryRetryLoop_stop att 3 s3 h3 (by simp [maxRetries])]
    norm_num
  · intro h0
    unfold recordUsageAttempt
    rw [h0]

/-- Witness for driver_retry_behavior at concrete oracles. -/
theorem driver_retry_behavior_witness :
    getUsageSummaryRetry (fun n => if n < 2 then CallOutcome.err 429 else CallOutcome.ok 7) =
      ⟨Except.ok 7, 3, [250, 500]⟩ ∧
    getUsageSummaryRetry (fun _ => CallOutcome.err 400) = ⟨Except.error 400, 1, []⟩ ∧
    (∃ sl, (fun _ => CallOutcome.err 503 : Nat → CallOutcome) maxRetries = CallOutcome.err sl ∧
      getUsageSummaryRetry (fun _ => CallOutcome.err 503) =
        ⟨Except.error sl, 4, [250, 500, 1000]⟩) ∧
    recordUsageAttempt (fun _ => CallOutcome.err 400) = ⟨Except.error 400, 1, []⟩ := by
  refine ⟨?_, ?_, ?_, ?_⟩
  · exact (driver_retry_behavior
      (fun n => if n < 2 then CallOutcome.err 429 else CallOutcome.ok 7) 7 0).1
      (by decide) (by decide) (by decide)
  · exact (driver_retry_behavior (fun _ => CallOutcome.err 400) 0 400).2.1 rfl (by decide)
  · exact (driver_retry_behavior (fun _ => CallOutcome.err 503) 0 503).2.2.1
      (fun k _ => ⟨503, rfl, by decide⟩)
  · exact (driver_retry_behavior (fun _ => CallOutcome.err 400) 0 400).2.2.2 rfl

/-- C5 counterexample: an event whose own idempotencyKey is present but
empty does not win the precedence — JavaScript || treats the empty string
as absent, so the header key is used instead. -/
theorem resolveKey_empty_key_counterexample :
    (⟨"t", "m", "c", none, 0, 1, some ""⟩ : InEvent).idempotencyKey = some "" ∧
    resolveKey (some "H") ⟨"t", "m", "c", none, 0, 1, some ""⟩ = "H" ∧
    ¬resolveKey (some "H") ⟨"t", "m", "c", none, 0, 1, some ""⟩ = "" := by
  refine ⟨rfl, rfl, by decide⟩

/-- C5 amended: the idempotency key is resolved in strict precedence
order — the events own key when present and non-empty, else the
request-level header key when present and non-empty, else the key derived
from (tenantId, metric, customerRef, resourceId, ts) — and identical
derivation inputs always yield the identical derived key. -/
theorem resolveKey_precedence (hdr : Option String) (e : InEvent) :
    (∀ k, e.idempotencyKey = some k → k ≠ "" → resolveKey hdr e = k) ∧
    ((e.idempotencyKey = none ∨ e.idempotencyKey = some "") →
      ∀ h, hdr = some h → h ≠ "" → resolveKey hdr e = h) ∧
    ((e.idempotencyKey = none ∨ e.idempotencyKey = some "") →
      (hdr = none ∨ hdr = some "") →
      resolveKey hdr e =
        generateIdempotencyKey e.tenantId e.metric e.customerRef e.resourceId e.ts) ∧
    (∀ e2 : InEvent, e.tenantId = e2.tenantId → e.metric = e2.metric →
      e.customerRef = e2.customerRef → e.resourceId = e2.resourceId → e.ts = e2.ts →
      generateIdempotencyKey e.tenantId e.metric e.customerRef e.resourceId e.ts =
        generateIdempotencyKey e2.tenantId e2.metric e2.customerRef e2.resourceId e2.ts) := by
  refine ⟨?_, ?_, ?_, ?_⟩
  · intro k hk hne
    simp [resolveKey, jsTruthy, hk, hne]
  · intro hor h hh hne
    rcases hor with h1 | h1 <;> simp [resolveKey, jsTruthy, h1, hh, hne]
  · intro hor1 hor2
    rcases hor1 with h1 | h1 <;> rcases hor2 with h2 | h2 <;>
      simp [resolveKey, jsTruthy, h1, h2]
  · intro e2 ht hm hc hr hts
    rw [ht, hm, hc, hr, hts]

/-- Witness for resolveKey_precedence at concrete inputs. -/
theorem resolveKey_precedence_witness :
    resolveKey (some "H") ⟨"t", "m", "c", none, 0, 1, some "K"⟩ = "K" ∧
    resolveKey (some "H") ⟨"t", "m", "c", none, 0, 1, none⟩ = "H" ∧
    resolveKey none ⟨"t", "m", "c", none, 0, 1, none⟩ =
      generateIdempotencyKey "t" "m" "c" none 0 := by
  refine ⟨?_, ?_, ?_⟩
  · exact (resolveKey_precedence (some "H") ⟨"t", "m", "c", none, 0, 1, some "K"⟩).1
      "K" rfl (by decide)
  · exact (resolveKey_precedence (some "H") ⟨"t", "m", "c", none, 0, 1, none⟩).2.1
      (Or.inl rfl) "H" rfl (by decide)
  · exact (resolveKey_precedence none ⟨"t", "m", "c", none, 0, 1, none⟩).2.2.1
      (Or.inl rfl) (Or.inl rfl)

/-- C9: every persisted event belongs to the authenticated tenant — an
event whose declared tenantId differs from the authenticated tenant is
rejected at the boundary (the per-event tenant check aborts the request
with 403 before anything is persisted), and in every successful ingestion
all persisted rows carry the authenticated tenant id. -/
theorem ingest_tenant_scoping (authT : String) (hdr : Option String) (now : Int)
    (store : List String) (batch : List InEvent) :
    ((∃ e ∈ batch, e.tenantId ≠ "" ∧ e.tenantId ≠ authT) →
      processBatch authT hdr now store batch = Except.error 403) ∧
    (∀ out, processBatch authT hdr now store batch = Except.ok out →
      ∀ p ∈ out.inserted, p.tenantId = authT) := by
  constructor
  · exact processBatch_mismatch authT hdr now store batch
  · intro out hout p hp
    by_cases hex : ∃ e ∈ batch, e.tenantId ≠ "" ∧ e.tenantId ≠ authT
    · rw [processBatch_mismatch authT hdr now store batch hex] at hout
      cases hout
    · have hok : ∀ e ∈ batch, ¬(e.tenantId ≠ "" ∧ e.tenantId ≠ authT) :=
        fun e he hcon => hex ⟨e, he, hcon⟩
      rw [processBatch_ok authT hdr now store batch hok] at hout
      injection hout with hout
      subst hout
      have hp2 := upsertBatch_mem store (toInsertList authT hdr now batch) p hp
      obtain ⟨e, _, _, hpe⟩ := toInsertList_mem authT hdr now batch p hp2
      rw [hpe]
      rfl

/-- Witness for ingest_tenant_scoping at concrete inputs: a cross-tenant
event aborts with 403, and a matching batch persists only rows of the
authenticated tenant. -/
theorem ingest_tenant_scoping_witness :
    processBatch "t" none 0 [] [⟨"other", "m", "c", none, 0, 1, some "k"⟩] =
      Except.error 403 ∧
    (∀ p ∈ ({ accepted := 1, duplicates := 0
            , results := [⟨"k", EvStatus.accepted, none⟩]
            , errors := []
            , jobs := [⟨⟨"t", "m", "c", "1970-01-01T00:00:00.000Z"⟩,
                "t:m:c:1970-01-01T00:00:00.000Z", 1000⟩]
            , inserted := [⟨"t", "m", "c", none, 0, 1, "k"⟩]
            , store := ["k"] } : BatchOutcome).inserted, p.tenantId = "t") := by
  constructor
  · exact (ingest_tenant_scoping "t" none 0 []
      [⟨"other", "m", "c", none, 0, 1, some "k"⟩]).1
      ⟨⟨"other", "m", "c", none, 0, 1, some "k"⟩, by simp, by decide⟩
  · exact (ingest_tenant_scoping "t" none 0 []
      [⟨"t", "m", "c", none, 0, 1, some "k"⟩]).2 _ (by decide)

/-- C6: in a batch with no cross-tenant events, every event more than one
hour in the future yields a per-index temporal-range error and an error
result, no future-dated row is ever persisted, and the batch outcome
(persisted rows, aggregation jobs, accepted and duplicate counts) is the
same as for the batch with the future events removed — the others are
processed normally. -/
theorem ingest_future_timestamp_rejected (authT : String) (hdr : Option String)
    (now : Int) (store : List String) (batch : List InEvent)
    (hok : ∀ e ∈ batch, ¬(e.tenantId ≠ "" ∧ e.tenantId ≠ authT)) :
    ∃ out out2,
      processBatch authT hdr now store batch = Except.ok out ∧
      processBatch authT hdr now store (batch.filter (fun e => !isFuture now e)) =
        Except.ok out2 ∧
      (∀ j e, batch.get? j = some e → isFuture now e = true →
        (j, futureErrMsg) ∈ out.errors ∧
        (⟨resolveKey hdr (forceTenant authT e), EvStatus.error, some futureErrMsg⟩ :
          ProcResult) ∈ out.results) ∧
      (∀ p ∈ out.inserted, ¬(now + futureLimitMs < p.ts)) ∧
      out.inserted = out2.inserted ∧ out.jobs = out2.jobs ∧
      out.accepted = out2.accepted ∧ out.duplicates = out2.duplicates := by
  have hok2 : ∀ e ∈ batch.filter (fun e => !isFuture now e),
      ¬(e.tenantId ≠ "" ∧ e.tenantId ≠ authT) :=
    fun e he => hok e (List.mem_of_mem_filter he)
  refine ⟨_, _, processBatch_ok authT hdr now store batch hok,
    processBatch_ok authT hdr now store _ hok2, ?_, ?_, ?_, ?_, ?_, ?_⟩
  · intro j e hj hf
    constructor
    · simpa using futureErrs_mem now batch 0 j e hj hf
    · exact List.mem_append_left _
        (futureErrResults_mem authT hdr now batch e (List.get?_mem hj) hf)
  · intro p hp
    have hp2 := upsertBatch_mem store (toInsertList authT hdr now batch) p hp
    obtain ⟨e, _, hfe, hpe⟩ := toInsertList_mem authT hdr now batch p hp2
    rw [hpe]
    simpa [isFuture, mkPersisted, forceTenant] using hfe
  · show (upsertBatch store (toInsertList authT hdr now batch)).1 =
      (upsertBatch store (toInsertList authT hdr now
        (batch.filter (fun e => !isFuture now e)))).1
    rw [toInsertList_filter]
  · show submitJobs (upsertBatch store (toInsertList authT hdr now batch)).1 =
      submitJobs (upsertBatch store (toInsertList authT hdr now
        (batch.filter (fun e => !isFuture now e)))).1
    rw [toInsertList_filter]
  · show (upsertBatch store (toInsertList authT hdr now batch)).1.length =
      (upsertBatch store (toInsertList authT hdr now
        (batch.filter (fun e => !isFuture now e)))).1.length
    rw [toInsertList_filter]
  · show (upsertBatch store (toInsertList authT hdr now batch)).2.1.length =
      (upsertBatch store (toInsertList authT hdr now
        (batch.filter (fun e => !isFuture now e)))).2.1.length
    rw [toInsertList_filter]

/-- Witness for ingest_future_timestamp_rejected: a two-event batch where
the second event is timestamped two hours ahead of now. -/
theorem ingest_future_timestamp_rejected_witness :
    ∃ out out2,
      processBatch "t" none 0 []
        [⟨"t", "m", "c", none, 0, 1, some "k1"⟩,
         ⟨"t", "m", "c", none, 7200000, 1, some "k2"⟩] = Except.ok out ∧
      processBatch "t" none 0 []
        ([⟨"t", "m", "c", none, 0, 1, some "k1"⟩,
          ⟨"t", "m", "c", none, 7200000, 1, some "k2"⟩].filter
            (fun e => !isFuture 0 e)) = Except.ok out2 ∧
      (∀ j e, [⟨"t", "m", "c", none, 0, 1, some "k1"⟩,
          ⟨"t", "m", "c", none, 7200000, 1, some "k2"⟩].get? j = some e →
        isFuture 0 e = true →
        (j, futureErrMsg) ∈ out.errors ∧
        (⟨resolveKey none (forceTenant "t" e), EvStatus.error, some futureErrMsg⟩ :
          ProcResult) ∈ out.results) ∧
      (∀ p ∈ out.inserted, ¬((0 : Int) + futureLimitMs < p.ts)) ∧
      out.inserted = out2.inserted ∧ out.jobs = out2.jobs ∧
      out.accepted = out2.accepted ∧ out.duplicates = out2.duplicates := by
  exact ingest_future_timestamp_rejected "t" none 0 []
    [⟨"t", "m", "c", none, 0, 1, some "k1"⟩,
     ⟨"t", "m", "c", none, 7200000, 1, some "k2"⟩] (by decide)

/-- C7 counterexample: the handler groups by the colon-joined key string,
not by the tuple — two inserted events with distinct
(tenantId, metric, customerRef, periodStart) groups whose fields contain
colons collide into a single submitted job, so the batch has 2 distinct
groups but only 1 job, refuting one job per distinct group. -/
theorem agg_job_key_collision :
    distinctGroupsCount (processBatch "t" none 0 []
      [⟨"t", "m:c", "x", none, 0, 1, some "k1"⟩,
       ⟨"t", "m", "c:x", none, 0, 1, some "k2"⟩]) = 2 ∧
    jobsCount (processBatch "t" none 0 []
      [⟨"t", "m:c", "x", none, 0, 1, some "k1"⟩,
       ⟨"t", "m", "c:x", none, 0, 1, some "k2"⟩]) = 1 ∧
    ¬(jobsCount (processBatch "t" none 0 []
        [⟨"t", "m:c", "x", none, 0, 1, some "k1"⟩,
         ⟨"t", "m", "c:x", none, 0, 1, some "k2"⟩]) =
      distinctGroupsCount (processBatch "t" none 0 []
        [⟨"t", "m:c", "x", none, 0, 1, some "k1"⟩,
         ⟨"t", "m", "c:x", none, 0, 1, some "k2"⟩])) := by
  decide

/-- C7 amended: in every successful ingestion, each submitted aggregation
job carries the fixed 1000 ms delay, a jobId equal to the colon-joined
logical key string of its data, and data derived from some inserted event
(tenant, metric, customer, and first-of-month UTC periodStart) — so no
job arises from duplicate or rejected events; every inserted event is
covered by a job with its key string; and the submitted jobIds are
pairwise distinct (one pending job per key string). -/
theorem agg_jobs_deduped (authT : String) (hdr : Option String) (now : Int)
    (store : List String) (batch : List InEvent) (out : BatchOutcome)
    (hout : processBatch authT hdr now store batch = Except.ok out) :
    (∀ js ∈ out.jobs, js.delayMs = 1000 ∧ js.jobId = aggJobKey js.data ∧
      ∃ p ∈ out.inserted, js.data = aggJobOf p) ∧
    (∀ p ∈ out.inserted, ∃ js ∈ out.jobs, js.jobId = aggJobKey (aggJobOf p)) ∧
    (out.jobs.map (fun js => js.jobId)).Nodup := by
  unfold processBatch at hout
  cases hpe : processEvents authT hdr now 0 batch with
  | error c =>
    rw [hpe] at hout
    cases hout
  | ok trip =>
    obtain ⟨t1, t2, t3⟩ := trip
    rw [hpe] at hout
    injection hout with hout
    subst hout
    exact ⟨submitJobs_sound _, submitJobs_covers _, submitJobs_nodup _⟩

/-- Witness for agg_jobs_deduped at a concrete single-event batch. -/
theorem agg_jobs_deduped_witness :
    (∀ js ∈ ({ accepted := 1, duplicates := 0
             , results := [⟨"k", EvStatus.accepted, none⟩]
             , errors := []
             , jobs := [⟨⟨"t1", "m", "c", "1970-01-01T00:00:00.000Z"⟩,
                 "t1:m:c:1970-01-01T00:00:00.000Z", 1000⟩]
             , inserted := [⟨"t1", "m", "c", none, 0, 1, "k"⟩]
             , store := ["k"] } : BatchOutcome).jobs,
      js.delayMs = 1000 ∧ js.jobId = aggJobKey js.data ∧
      ∃ p ∈ ({ accepted := 1, duplicates := 0
             , results := [⟨"k", EvStatus.accepted, none⟩]
             , errors := []
             , jobs := [⟨⟨"t1", "m", "c", "1970-01-01T00:00:00.000Z"⟩,
                 "t1:m:c:1970-01-01T00:00:00.000Z", 1000⟩]
             , inserted := [⟨"t1", "m", "c", none, 0, 1, "k"⟩]
             , store := ["k"] } : BatchOutcome).inserted, js.data = aggJobOf p) ∧
    (∀ p ∈ ({ accepted := 1, duplicates := 0
             , results := [⟨"k", EvStatus.accepted, none⟩]
             , errors := []
             , jobs := [⟨⟨"t1", "m", "c", "1970-01-01T00:00:00.000Z"⟩,
                 "t1:m:c:1970-01-01T00:00:00.000Z", 1000⟩]
             , inserted := [⟨"t1", "m", "c", none, 0, 1, "k"⟩]
             , store := ["k"] } : BatchOutcome).inserted,
      ∃ js ∈ ({ accepted := 1, duplicates := 0
              , results := [⟨"k", EvStatus.accepted, none⟩]
              , errors := []
              , jobs := [⟨⟨"t1", "m", "c", "1970-01-01T00:00:00.000Z"⟩,
                  "t1:m:c:1970-01-01T00:00:00.000Z", 1000⟩]
              , inserted := [⟨"t1", "m", "c", none, 0, 1, "k"⟩]
              , store := ["k"] } : BatchOutcome).jobs,
        js.jobId = aggJobKey (aggJobOf p)) ∧
    (({ accepted := 1, duplicates := 0
      , results := [⟨"k", EvStatus.accepted, none⟩]
      , errors := []
      , jobs := [⟨⟨"t1", "m", "c", "1970-01-01T00:00:00.000Z"⟩,
          "t1:m:c:1970-01-01T00:00:00.000Z", 1000⟩]
      , inserted := [⟨"t1", "m", "c", none, 0, 1, "k"⟩]
      , store := ["k"] } : BatchOutcome).jobs.map (fun js => js.jobId)).Nodup := by
  exact agg_jobs_deduped "t1" none 0 [] [⟨"t1", "m", "c", none, 0, 1, some "k"⟩]
    _ (by decide)

/-- C1 counterexample: submitting the identical event twice within one
ingestion batch does not yield one accepted and one duplicate result —
the per-event results list reports status accepted for both occurrences
(statuses are looked up per key, and the key is among the inserted keys),
while the accepted and duplicates count fields are 1 and 1. -/
theorem ingest_same_batch_dup_two_accepted :
    ¬(statusCount EvStatus.accepted (processBatch "t1" none 0 []
        [⟨"t1", "m", "c", none, 0, 1, some "k"⟩,
         ⟨"t1", "m", "c", none, 0, 1, some "k"⟩]) = 1 ∧
      statusCount EvStatus.duplicate (processBatch "t1" none 0 []
        [⟨"t1", "m", "c", none, 0, 1, some "k"⟩,
         ⟨"t1", "m", "c", none, 0, 1, some "k"⟩]) = 1) ∧
    statusCount EvStatus.accepted (processBatch "t1" none 0 []
      [⟨"t1", "m", "c", none, 0, 1, some "k"⟩,
       ⟨"t1", "m", "c", none, 0, 1, some "k"⟩]) = 2 ∧
    statusCount EvStatus.duplicate (processBatch "t1" none 0 []
      [⟨"t1", "m", "c", none, 0, 1, some "k"⟩,
       ⟨"t1", "m", "c", none, 0, 1, some "k"⟩]) = 0 ∧
    acceptedField (processBatch "t1" none 0 []
      [⟨"t1", "m", "c", none, 0, 1, some "k"⟩,
       ⟨"t1", "m", "c", none, 0, 1, some "k"⟩]) = 1 ∧
    duplicatesField (processBatch "t1" none 0 []
      [⟨"t1", "m", "c", none, 0, 1, some "k"⟩,
       ⟨"t1", "m", "c", none, 0, 1, some "k"⟩]) = 1 ∧
    statusCount EvStatus.error (processBatch "t1" none 0 []
      [⟨"t1", "m", "c", none, 0, 1, some "k"⟩,
       ⟨"t1", "m", "c", none, 0, 1, some "k"⟩]) = 0 := by
  decide

/-- C1 amended: submitting the identical event in two successive
ingestion batches yields exactly one accepted and one duplicate result,
never two accepted; the duplicate is counted in the duplicates field and
never reported as an error. When both copies are in one batch, the
accepted and duplicates counts are still 1 and 1 and nothing is an error,
but the per-event results list marks both occurrences accepted. -/
theorem ingest_idempotent_across_batches (authT : String) (hdr : Option String)
    (now : Int) (store : List String) (e : InEvent)
    (hten : ¬(e.tenantId ≠ "" ∧ e.tenantId ≠ authT))
    (hfut : isFuture now e = false)
    (hnew : resolveKey hdr (forceTenant authT e) ∉ store) :
    ∃ out1 out2 outb,
      processBatch authT hdr now store [e] = Except.ok out1 ∧
      out1.accepted = 1 ∧ out1.duplicates = 0 ∧
      out1.results = [⟨resolveKey hdr (forceTenant authT e), EvStatus.accepted, none⟩] ∧
      out1.errors = [] ∧
      processBatch authT hdr now out1.store [e] = Except.ok out2 ∧
      out2.accepted = 0 ∧ out2.duplicates = 1 ∧
      out2.results = [⟨resolveKey hdr (forceTenant authT e), EvStatus.duplicate, none⟩] ∧
      out2.errors = [] ∧
      processBatch authT hdr now store [e, e] = Except.ok outb ∧
      outb.accepted = 1 ∧ outb.duplicates = 1 ∧ outb.errors = [] ∧
      statusCount EvStatus.error (Except.ok outb) = 0 := by
  have hokx : ∀ x ∈ [e], ¬(x.tenantId ≠ "" ∧ x.tenantId ≠ authT) := by
    intro x hx
    rw [List.mem_singleton] at hx
    subst hx
    exact hten
  have hokxx : ∀ x ∈ [e, e], ¬(x.tenantId ≠ "" ∧ x.tenantId ≠ authT) := by
    intro x hx
    rcases List.mem_cons.mp hx with h1 | h1
    · subst h1; exact hten
    · rw [List.mem_singleton] at h1; subst h1; exact hten
  have hfutF : isFuture now (forceTenant authT e) = false := by
    rw [isFuture_forceTenant]; exact hfut
  have hkey : (mkPersisted hdr (forceTenant authT e)).idempotencyKey =
      resolveKey hdr (forceTenant authT e) := rfl
  have hto1 : toInsertList authT hdr now [e] = [mkPersisted hdr (forceTenant authT e)] := by
    simp [toInsertList, hfutF]
  have hto2 : toInsertList authT hdr now [e, e] =
      [mkPersisted hdr (forceTenant authT e), mkPersisted hdr (forceTenant authT e)] := by
    simp [toInsertList, hfutF]
  have hup1 : upsertBatch store [mkPersisted hdr (forceTenant authT e)] =
      ([mkPersisted hdr (forceTenant authT e)], [],
        resolveKey hdr (forceTenant authT e) :: store) := by
    simp [upsertBatch, hkey, hnew]
  have hup2 : upsertBatch (resolveKey hdr (forceTenant authT e) :: store)
      [mkPersisted hdr (forceTenant authT e)] =
      ([], [resolveKey hdr (forceTenant authT e)],
        resolveKey hdr (forceTenant authT e) :: store) := by
    simp [upsertBatch, hkey]
  have hupb : upsertBatch store
      [mkPersisted hdr (forceTenant authT e), mkPersisted hdr (forceTenant authT e)] =
      ([mkPersisted hdr (forceTenant authT e)], [resolveKey hdr (forceTenant authT e)],
        resolveKey hdr (forceTenant authT e) :: store) := by
    simp [upsertBatch, hkey, hnew]
  have hfe1 : futureErrs now 0 [e] = [] := by simp [futureErrs, hfut]
  have hfeb : futureErrs now 0 [e, e] = [] := by simp [futureErrs, hfut]
  have hfr1 : futureErrResults authT hdr now [e] = [] := by
    simp [futureErrResults, hfutF]
  have hfrb : futureErrResults authT hdr now [e, e] = [] := by
    simp [futureErrResults, hfutF]
  have h1 : processBatch authT hdr now store [e] = Except.ok
      { accepted := 1, duplicates := 0
      , results := [⟨resolveKey hdr (forceTenant authT e), EvStatus.accepted, none⟩]
      , errors := []
      , jobs := submitJobs [mkPersisted hdr (forceTenant authT e)]
      , inserted := [mkPersisted hdr (forceTenant authT e)]
      , store := resolveKey hdr (forceTenant authT e) :: store } := by
    rw [processBatch_ok authT hdr now store [e] hokx, hto1, hup1, hfe1, hfr1]
    simp [mapResults, hkey]
  have h2 : processBatch authT hdr now (resolveKey hdr (forceTenant authT e) :: store)
      [e] = Except.ok
      { accepted := 0, duplicates := 1
      , results := [⟨resolveKey hdr (forceTenant authT e), EvStatus.duplicate, none⟩]
      , errors := []
      , jobs := submitJobs []
      , inserted := []
      , store := resolveKey hdr (forceTenant authT e) :: store } := by
    rw [processBatch_ok authT hdr now _ [e] hokx, hto1, hup2, hfe1, hfr1]
    simp [mapResults, hkey]
  have hb : processBatch authT hdr now store [e, e] = Except.ok
      { accepted := 1, duplicates := 1
      , results := [⟨resolveKey hdr (forceTenant authT e), EvStatus.accepted, none⟩,
          ⟨resolveKey hdr (forceTenant authT e), EvStatus.accepted, none⟩]
      , errors := []
      , jobs := submitJobs [mkPersisted hdr (forceTenant authT e)]
      , inserted := [mkPersisted hdr (forceTenant authT e)]
      , store := resolveKey hdr (forceTenant authT e) :: store } := by
    rw [processBatch_ok authT hdr now store [e, e] hokxx, hto2, hupb, hfeb, hfrb]
    simp [mapResults, hkey]
  exact ⟨_, _, _, h1, rfl, rfl, rfl, rfl, h2, rfl, rfl, rfl, rfl, hb, rfl, rfl, rfl, rfl⟩

/-- Witness for ingest_idempotent_across_batches at a concrete event. -/
theorem ingest_idempotent_across_batches_witness :
    ∃ out1 out2 outb,
      processBatch "t1" none 0 [] [⟨"t1", "m", "c", none, 0, 1, some "k"⟩] =
        Except.ok out1 ∧
      out1.accepted = 1 ∧ out1.duplicates = 0 ∧
      out1.results = [⟨resolveKey none (forceTenant "t1"
        ⟨"t1", "m", "c", none, 0, 1, some "k"⟩), EvStatus.accepted, none⟩] ∧
      out1.errors = [] ∧
      processBatch "t1" none 0 out1.store [⟨"t1", "m", "c", none, 0, 1, some "k"⟩] =
        Except.ok out2 ∧
      out2.accepted = 0 ∧ out2.duplicates = 1 ∧
      out2.results = [⟨resolveKey none (forceTenant "t1"
        ⟨"t1", "m", "c", none, 0, 1, some "k"⟩), EvStatus.duplicate, none⟩] ∧
      out2.errors = [] ∧
      processBatch "t1" none 0 []
        [⟨"t1", "m", "c", none, 0, 1, some "k"⟩,
         ⟨"t1", "m", "c", none, 0, 1, some "k"⟩] = Except.ok outb ∧
      outb.accepted = 1 ∧ outb.duplicates = 1 ∧ outb.errors = [] ∧
      statusCount EvStatus.error (Except.ok outb) = 0 := by
  exact ingest_idempotent_across_batches "t1" none 0 []
    ⟨"t1", "m", "c", none, 0, 1, some "k"⟩ (by decide) (by decide) (by decide)

end Stripemeter
